import Mathlib

/-!
Verification of the fallback/extraction pipeline of `src/app.py`
(`WebBrowserTools`, `ResearchAgent`, `MarketAnalysisAgent`, `MultiAgentSystem`).

The Python code is shallowly embedded: every remote call made by the program
(the encyclopedia summary endpoint and the chat-completion endpoint) is an
oracle supplied through an `Env` record, so a run of the pipeline is a pure
function of the company name and the oracle.  Python exceptions raised by a
remote call are `Except.error`; totality of every Lean definition models the
guaranteed termination of the straight-line Python code.

String primitives (`str.strip`, `str.splitlines`, `str.lower`, slicing,
`in`, `re.split` on the two concrete patterns used by the program) are
modelled character-listwise for the ASCII fragment the program exercises;
Python's extra Unicode line boundaries and whitespace code points outside
`" \t\n\r\x0b\x0c"` are not modelled.
-/

namespace AIAgent

/-- Characters of Python's `string.whitespace`, the set removed by `str.strip()`. -/
def isPySpace (c : Char) : Bool :=
  c == ' ' || c == '\t' || c == '\n' || c == '\r' || c == '\x0b' || c == '\x0c'

/-- Strip characters satisfying `p` from both ends of a character list. -/
def stripWhile (p : Char → Bool) (l : List Char) : List Char :=
  ((l.dropWhile p).reverse.dropWhile p).reverse

/-- Python `s.strip()`. -/
def pyStrip (s : String) : String :=
  (stripWhile isPySpace s.toList).asString

/-- Python `s.strip(" -•")` (used on lines of a model response). -/
def stripDashBullet (s : String) : String :=
  (stripWhile (fun c => c == ' ' || c == '-' || c == '•') s.toList).asString

/-- ASCII lower-casing of one character, as Python `str.lower` acts on ASCII. -/
def charLower (c : Char) : Char :=
  if 'A' ≤ c ∧ c ≤ 'Z' then Char.ofNat (c.toNat + 32) else c

/-- Python `s.lower()` (ASCII fragment). -/
def asciiLower (s : String) : String :=
  (s.toList.map charLower).asString

/-- `n` is a prefix of `h` (on character lists). -/
def isPrefixB : List Char → List Char → Bool
  | [], _ => true
  | _ :: _, [] => false
  | a :: as, b :: bs => a == b && isPrefixB as bs

/-- `needle` occurs as a contiguous substring of the haystack (Python `in`). -/
def containsB (needle : List Char) : List Char → Bool
  | [] => isPrefixB needle []
  | c :: t => isPrefixB needle (c :: t) || containsB needle t

/-- Python `needle in hay` for strings. -/
def strContainsS (hay needle : String) : Bool :=
  containsB needle.toList hay.toList

/-- Python `s[:n]` (slice of the first `n` characters). -/
def strTake (n : Nat) (s : String) : String :=
  (s.toList.take n).asString

/-- Python `company_name.replace(" ", "_")` (single-character pattern). -/
def underscoreSpaces (s : String) : String :=
  (s.toList.map (fun c => if c == ' ' then '_' else c)).asString

/-- Python `str.splitlines` restricted to the `\r\n`, `\n`, `\r`, `\x0b`,
`\x0c` boundaries (the Unicode-only boundaries are not modelled).  A final
segment is emitted only if non-empty, as in Python. -/
def splitlinesGo : List Char → List Char → List (List Char)
  | cur, [] => if cur.isEmpty then [] else [cur.reverse]
  | cur, '\r' :: '\n' :: rest => cur.reverse :: splitlinesGo [] rest
  | cur, '\n' :: rest => cur.reverse :: splitlinesGo [] rest
  | cur, '\r' :: rest => cur.reverse :: splitlinesGo [] rest
  | cur, '\x0b' :: rest => cur.reverse :: splitlinesGo [] rest
  | cur, '\x0c' :: rest => cur.reverse :: splitlinesGo [] rest
  | cur, c :: rest => splitlinesGo (c :: cur) rest

/-- Python `s.splitlines()`. -/
def pySplitlines (s : String) : List String :=
  (splitlinesGo [] s.toList).map List.asString

/-- Python `re.split(r'[.\n]', s)`: split on every `.` or newline,
keeping empty segments. -/
def splitDotNlGo : List Char → List Char → List (List Char)
  | cur, [] => [cur.reverse]
  | cur, '.' :: rest => cur.reverse :: splitDotNlGo [] rest
  | cur, '\n' :: rest => cur.reverse :: splitDotNlGo [] rest
  | cur, c :: rest => splitDotNlGo (c :: cur) rest

/-- Python `re.split(r'[.\n]', s)` on strings. -/
def splitDotNl (s : String) : List String :=
  (splitDotNlGo [] s.toList).map List.asString

/-- Python `re.split(r',| and | & |;|-', s)`: leftmost-first scan over the
five alternatives (which are pairwise non-overlapping at any position). -/
def sepSplitGo : List Char → List Char → List (List Char)
  | cur, [] => [cur.reverse]
  | cur, ',' :: rest => cur.reverse :: sepSplitGo [] rest
  | cur, ';' :: rest => cur.reverse :: sepSplitGo [] rest
  | cur, '-' :: rest => cur.reverse :: sepSplitGo [] rest
  | cur, ' ' :: 'a' :: 'n' :: 'd' :: ' ' :: rest => cur.reverse :: sepSplitGo [] rest
  | cur, ' ' :: '&' :: ' ' :: rest => cur.reverse :: sepSplitGo [] rest
  | cur, c :: rest => sepSplitGo (c :: cur) rest

/-- Python `re.split(r',| and | & |;|-', s)` on strings. -/
def sepSplit (s : String) : List String :=
  (sepSplitGo [] s.toList).map List.asString

/-!  The structured response object returned by the chat-completion client.
`response.choices[0].message.content` in Python is attribute/index access on
an SDK object of a priori unknown shape; we model the object as a dynamic
value and each access as a fallible step (`Except.error` models the raised
`AttributeError`/`IndexError`/`TypeError`). -/

/-- A dynamic (Python-object-like) value. -/
inductive PyObj where
  | str (s : String)
  | int (n : Int)
  | list (xs : List PyObj)
  | dict (fields : List (String × PyObj))
  | none

/-- Attribute / key access `v.k`; raises for a missing key or a non-record. -/
def getAttr (v : PyObj) (k : String) : Except String PyObj :=
  match v with
  | .dict fields =>
    match fields.find? (fun p => p.1 == k) with
    | some p => .ok p.2
    | Option.none => .error ("AttributeError: " ++ k)
  | _ => .error ("AttributeError: " ++ k)

/-- Index access `v[i]`; raises for a non-list or an out-of-range index. -/
def getIndex (v : PyObj) (i : Nat) : Except String PyObj :=
  match v with
  | .list xs =>
    match xs.get? i with
    | some x => .ok x
    | Option.none => .error "IndexError"
  | _ => .error "TypeError: not indexable"

/-- `response.choices[0].message.content`, the extraction performed by
`WebBrowserTools._call_chat_completion` (src/app.py line 178); any failure
of a step models the exception the Python attribute access raises. -/
def extractChatContent (resp : PyObj) : Except String String := do
  let choices ← getAttr resp "choices"
  let c0 ← getIndex choices 0
  let msg ← getAttr c0 "message"
  let content ← getAttr msg "content"
  match content with
  | .str s => pure s
  | _ => .error "TypeError: content is not a string"

/-- The well-formed chat-completion response shape
`{choices: [{message: {content: x}}]}`. -/
def chatShape (x : String) : PyObj :=
  .dict [("choices", .list [.dict [("message", .dict [("content", .str x)])]])]

/-- The summary-endpoint response: HTTP status plus the `extract` field of
the decoded JSON body (`data.get("extract", "") or ""` collapses a missing
or null field to `""`). -/
structure WikiResp where
  status : Nat
  extract : String
deriving DecidableEq

/-- The remote world as seen by one pipeline run: the summary endpoint
(keyed by the formatted company slug) and the chat endpoint (keyed by the
system role and prompt).  `Except.error` models a raised exception
(timeout, connection error, undecodable body).

`htmlPage` — modelled from the spec: the encyclopedia rendered-page
endpoint of §4.2 step 2 and §6.  `src/app.py` contains no call to it; the
field exists so that statements about the (claimed) HTML fallback step can
be expressed. -/
structure Env where
  wiki : String → Except String WikiResp
  chat : String → String → Except String PyObj
  htmlPage : String → Except String String

/-!  The accumulating `for`-loops of the two heuristic fallbacks
(`_simple_offerings_from_description` and `_simple_focus_from_description`)
share one shape: process items in order, let a step either keep or append
to the candidate list, and `break` as soon as the list has reached
`maxItems` elements.  `breakLoop` is that loop; `fullScan` is the same scan
without the `break`, used to characterise it. -/

/-- One `for`-loop body iteration followed by the `break` test
`if len(found) >= max_items: break`. -/
def breakLoop (maxItems : Nat) (step : List String → α → List String) :
    List α → List String → List String
  | [], c => c
  | a :: as, c =>
    let c2 := step c a
    if maxItems ≤ c2.length then c2 else breakLoop maxItems step as c2

/-- The same scan without the early `break`. -/
def fullScan (step : List String → α → List String) :
    List α → List String → List String
  | [], c => c
  | a :: as, c => fullScan step as (step c a)

/-- The outer fragment loop of `_simple_offerings_from_description`: run the
inner parts loop on each fragment, with the outer
`if len(candidates) >= max_items: break`. -/
def fragLoop (maxItems : Nat) (step : List String → α → List String) :
    List (List α) → List String → List String
  | [], c => c
  | ps :: rest, c =>
    let c2 := breakLoop maxItems step ps c
    if maxItems ≤ c2.length then c2 else fragLoop maxItems step rest c2

/-- `p.lower() in (c.lower() for c in candidates)`. -/
def lowerMem (q : String) (candidates : List String) : Bool :=
  candidates.any (fun x => asciiLower x == asciiLower q)

/-- Loop body of `_simple_offerings_from_description` (src/app.py lines
25-31): strip the part, append it when it has at least 10 characters and
its lower-casing is not already present. -/
def offeringsStep (c : List String) (p : String) : List String :=
  let q := pyStrip p
  if 10 ≤ q.length ∧ lowerMem q c = false then c ++ [q] else c

/-- The parts of one fragment: the fragment is stripped, an empty fragment
is skipped (`continue`), otherwise it is split on the list separators. -/
def fragParts (fragment : String) : List String :=
  let fr := pyStrip fragment
  if fr = "" then [] else sepSplit fr

/-- `_simple_offerings_from_description` (src/app.py lines 13-37). -/
def simpleOfferingsFromDescription (description : String) (maxItems : Nat) :
    List String :=
  if description = "" then []
  else
    let fragments := splitDotNl description
    let candidates := fragLoop maxItems offeringsStep (fragments.map fragParts) []
    if candidates = [] then [strTake 140 (pyStrip description)]
    else candidates.take maxItems

/-- The fixed keyword vocabulary of `_simple_focus_from_description`
(src/app.py line 41), in scan order. -/
def focusKeywords : List String :=
  ["cloud", "ai", "ml", "mobile", "saas", "hardware", "biotech", "health",
   "finance", "e-commerce", "logistics", "security", "analytics"]

/-- The label dictionary of `_simple_focus_from_description` (src/app.py
lines 46-60).  The dictionary covers every keyword of `focusKeywords`, so
the Python default `kw.title()` is unreachable; the catch-all branch is
therefore left as the keyword itself. -/
def focusLabelOf (kw : String) : String :=
  match kw with
  | "ai" => "AI / Machine Learning"
  | "ml" => "AI / Machine Learning"
  | "cloud" => "Cloud Infrastructure"
  | "saas" => "SaaS / Platform"
  | "mobile" => "Mobile & Apps"
  | "hardware" => "Hardware / Devices"
  | "biotech" => "Biotech / Life Sciences"
  | "health" => "Healthcare Solutions"
  | "finance" => "Financial Services"
  | "e-commerce" => "E-commerce / Retail"
  | "logistics" => "Logistics / Supply Chain"
  | "security" => "Security / Privacy"
  | "analytics" => "Data Analytics"
  | other => other

/-- Loop body of `_simple_focus_from_description` (src/app.py lines 43-62):
when the keyword occurs in the lower-cased description, append its label if
not already present. -/
def focusStep (descLower : String) (found : List String) (kw : String) :
    List String :=
  if strContainsS descLower kw then
    let label := focusLabelOf kw
    if found.contains label then found else found ++ [label]
  else found

/-- The generic focus-area labels used when no keyword matches. -/
def genericFocus : List String :=
  ["Product/Market Fit", "Customer Experience", "Operational Efficiency"]

/-- `_simple_focus_from_description` (src/app.py lines 39-68). -/
def simpleFocusFromDescription (description : String) (maxItems : Nat) :
    List String :=
  let found := breakLoop maxItems (focusStep (asciiLower description)) focusKeywords []
  if found = [] then genericFocus.take maxItems
  else found.take maxItems

/-- Python `"\n".join(bullets)`. -/
def joinNl : List String → String
  | [] => ""
  | [x] => x
  | x :: y :: rest => x ++ "\n" ++ joinNl (y :: rest)

/-- The structured company data flowing through the pipeline: the dict
built by `ResearchAgent.research_company` (keys `company`, `industry`,
`offerings`, `strategic_focus`, `description`). -/
structure CompanyInfo where
  company : String
  industry : String
  offerings : List String
  strategicFocus : List String
  description : String

/-- The three canned bullets per industry branch of
`_simple_use_cases_from_industry` (src/app.py lines 78-114). -/
def industryBullets (industry : String) : List String :=
  if strContainsS industry "automotiv" || strContainsS industry "vehicle" then
    ["- Predictive maintenance using telemetry + ML to reduce downtime.",
     "- Visual inspection of parts using computer vision.",
     "- Drive-assist personlization (GenAI for driver prompts & UX)."]
  else if strContainsS industry "finance" || strContainsS industry "bank" then
    ["- Fraud detection using anomaly detection models.",
     "- Smart financial summaries & compliance automation with GenAI.",
     "- Customer support & chatbot for common inquiries."]
  else if strContainsS industry "e-commerce" || strContainsS industry "retail" then
    ["- Personalized product recommendations (recs + ranking).",
     "- Automated product description generation using GenAI.",
     "- Demand forecasting for inventory optimization."]
  else if strContainsS industry "health" || strContainsS industry "medical" then
    ["- Medical imaging assistance using CV models (triage).",
     "- Clinical note summarization and coding with GenAI.",
     "- Patient triage chatbot and remote-monitoring analytics."]
  else if strContainsS industry "technology" || strContainsS industry "software" then
    ["- Automated code/documentation generation with GenAI assistants.",
     "- Observability analytics (anomaly detection, root-cause).",
     "- Customer success automation and knowledge-base search."]
  else
    ["- Improve customer experience using personalized GenAI chat assistants.",
     "- Automate reporting and internal knowledge search with semantic search + GenAI.",
     "- Operational efficiency via predictive analytics and automation."]

/-- The extra bullet interpolating the first offering, when present. -/
def offeringExtra : List String → List String
  | [] => []
  | o :: _ => ["- Tailored solution idea: adapt GenAI to " ++ o ++ "."]

/-- The extra bullet interpolating the first focus area, when present. -/
def focusExtra : List String → List String
  | [] => []
  | f :: _ => ["- Strategic alignment: focus on " ++ f ++ " to unlock growth."]

/-- `_simple_use_cases_from_industry` (src/app.py lines 70-122):
`(industry_data.get("industry") or "General").lower()` selects the bullet
template, then one bullet per non-empty `offerings` / `strategic_focus`
list is appended and everything is joined with newlines.  (The local
`desc` variable of the Python function is read but never used.) -/
def simpleUseCasesFromIndustry (info : CompanyInfo) : String :=
  let industry := asciiLower (if info.industry = "" then "General" else info.industry)
  let bullets :=
    industryBullets industry ++ offeringExtra info.offerings
      ++ focusExtra info.strategicFocus
  joinNl bullets

/-!  `WebBrowserTools` (src/app.py lines 125-214).  Each method is a pure
function of the oracle `Env`; the `model`, `temperature` and
`max_completion_tokens` arguments of the chat call do not influence which
oracle answer is received and are absorbed into `Env.chat`. -/

/-- Python `repr` of a list of strings, as an f-string renders
`{industry_data['offerings']}` (strings assumed to contain no quote that
would change Python's quoting choice). -/
def pyReprList (xs : List String) : String :=
  "[" ++ String.intercalate ", " (xs.map (fun s => "\x27" ++ s ++ "\x27")) ++ "]"

/-- Prompt of `generate_description_with_groq` (src/app.py line 181). -/
def descriptionPrompt (companyName : String) : String :=
  "Write a concise 2-3 line professional description about the company \x27"
    ++ companyName ++ "\x27."

/-- Prompt of `generate_focus_areas` (src/app.py line 193). -/
def focusPrompt (description : String) : String :=
  "Suggest 2-3 strategic focus areas for the company based on this description:\n\n"
    ++ description ++ "\n\nReturn each focus area on a new line."

/-- Prompt of `generate_offerings` (src/app.py line 205). -/
def offeringsPrompt (description : String) : String :=
  "Based on this company description, list 2-3 main products or services they offer. Return each on a new line:\n\n"
    ++ description

/-- Prompt of `MarketAnalysisAgent.generate_use_cases` (src/app.py lines
266-278). -/
def useCasePrompt (info : CompanyInfo) : String :=
  "You are an AI business consultant.\n"
    ++ "Analyze the following industry and suggest concise AI/ML and Generative AI (GenAI) use cases (return bullet points, each on its own line):\n\n"
    ++ "Industry: " ++ info.industry ++ "\n"
    ++ "Description: " ++ info.description ++ "\n"
    ++ "Offerings: " ++ pyReprList info.offerings ++ "\n"
    ++ "Strategic Focus Areas: " ++ pyReprList info.strategicFocus ++ "\n\n"
    ++ "Please suggest:\n"
    ++ "- Practical AI/ML/GenAI solutions\n"
    ++ "- Improvements to customer experience, operations, supply chain\n"
    ++ "- Internal GenAI solutions (chatbots, automated reporting, document search)\n"

/-- `WebBrowserTools._call_chat_completion` (src/app.py lines 163-178):
perform the chat call and extract `response.choices[0].message.content`;
returns the string or propagates the raised exception to the caller. -/
def callChatCompletion (env : Env) (systemRole prompt : String) :
    Except String String :=
  match env.chat systemRole prompt with
  | .error e => .error e
  | .ok resp => extractChatContent resp

/-- `WebBrowserTools.generate_description_with_groq` (src/app.py lines
180-190): on success the stripped model text, on any exception the
synthetic placeholder sentence. -/
def generateDescriptionWithGroq (env : Env) (companyName : String) : String :=
  match callChatCompletion env "You are a concise business copywriter."
      (descriptionPrompt companyName) with
  | .ok text => pyStrip text
  | .error _ => companyName ++ " (description unavailable due to API error)."

/-- The line parse shared by `generate_focus_areas` and
`generate_offerings` (src/app.py lines 196 and 208):
`[line.strip(" -•") for line in text.splitlines() if line.strip()]`. -/
def parseItems (text : String) : List String :=
  ((pySplitlines text).filter (fun l => pyStrip l ≠ "")).map stripDashBullet

/-- `WebBrowserTools.generate_focus_areas` (src/app.py lines 192-202). -/
def generateFocusAreas (env : Env) (description : String) : List String :=
  match callChatCompletion env "You are a strategic business consultant."
      (focusPrompt description) with
  | .ok text => (parseItems text).take 3
  | .error _ => []

/-- `WebBrowserTools.generate_offerings` (src/app.py lines 204-214). -/
def generateOfferings (env : Env) (description : String) : List String :=
  match callChatCompletion env "You are an expert product analyst."
      (offeringsPrompt description) with
  | .ok text => (parseItems text).take 3
  | .error _ => []

/-- The summary-endpoint part of `WebBrowserTools.scrape_company_info`
(src/app.py lines 131-144): the accepted description, or `""` when the
fetch raised, the status was not 200, the extract contains the
disambiguation marker, or its stripped length is below 40. -/
def wikiDescription (env : Env) (companyName : String) : String :=
  match env.wiki (underscoreSpaces companyName) with
  | .error _ => ""
  | .ok resp =>
    if resp.status == 200 then
      let description := resp.extract
      if strContainsS (asciiLower description) "may refer to:"
          || (pyStrip description).length < 40 then ""
      else description
    else ""

/-- The result dict of `scrape_company_info` (src/app.py lines 157-161). -/
structure ScrapeResult where
  description : String
  products : List String
  focusAreas : List String

/-- `WebBrowserTools.scrape_company_info` (src/app.py lines 129-161). -/
def scrapeCompanyInfo (env : Env) (companyName : String) : ScrapeResult :=
  let d0 := wikiDescription env companyName
  let description :=
    if d0 = "" then generateDescriptionWithGroq env companyName else d0
  let offerings0 := generateOfferings env description
  let offerings :=
    if offerings0 = [] then simpleOfferingsFromDescription description 3
    else offerings0
  let focus0 := generateFocusAreas env description
  let focus :=
    if focus0 = [] then simpleFocusFromDescription description 3 else focus0
  { description := description, products := offerings, focusAreas := focus }

/-- The kinds of remote call the pipeline can make.  `htmlFetch` — modelled
from the spec: the rendered-page fetch of §4.2 step 2; no line of
`src/app.py` performs it, so no trace below ever contains it. -/
inductive CallTag where
  | wikiSummary
  | htmlFetch
  | llmDescription
  | llmOfferings
  | llmFocus
deriving DecidableEq

/-- The sequence of remote calls `scrape_company_info` makes, read off the
control flow of src/app.py lines 129-155: the summary fetch is always
attempted; the description LLM call happens exactly when the summary step
produced nothing usable; the offerings and focus LLM calls always happen. -/
def scrapeCalls (env : Env) (companyName : String) : List CallTag :=
  [CallTag.wikiSummary]
    ++ (if wikiDescription env companyName = "" then [CallTag.llmDescription] else [])
    ++ [CallTag.llmOfferings, CallTag.llmFocus]

/-- `ResearchAgent._classify_industry` (src/app.py lines 241-257). -/
def classifyIndustry (description : String) : String :=
  if description = "" then "General Industry"
  else
    let desc := asciiLower description
    if strContainsS desc "automotive" || strContainsS desc "vehicle" then
      "Automotive"
    else if strContainsS desc "bank" || strContainsS desc "finance" then
      "Finance"
    else if strContainsS desc "e-commerce" || strContainsS desc "retail"
        || strContainsS desc "shop" then
      "E-commerce/Retail"
    else if strContainsS desc "software" || strContainsS desc "technology"
        || strContainsS desc "saas" then
      "Technology"
    else if strContainsS desc "entertainment" || strContainsS desc "media" then
      "Entertainment/Media"
    else if strContainsS desc "health" || strContainsS desc "medical"
        || strContainsS desc "clinic" then
      "Healthcare"
    else "General Industry"

/-- The closed industry label set of the classifier. -/
def industryLabels : List String :=
  ["Automotive", "Finance", "E-commerce/Retail", "Technology",
   "Entertainment/Media", "Healthcare", "General Industry"]

/-- `ResearchAgent.research_company` (src/app.py lines 229-239). -/
def researchCompany (env : Env) (companyName : String) : CompanyInfo :=
  let companyData := scrapeCompanyInfo env companyName
  { company := companyName
    industry := classifyIndustry companyData.description
    offerings := companyData.products
    strategicFocus := companyData.focusAreas
    description := companyData.description }

/-- `MarketAnalysisAgent.generate_use_cases` (src/app.py lines 264-287):
the stripped model text, or on any exception the deterministic template
fallback. -/
def generateUseCases (env : Env) (info : CompanyInfo) : String :=
  match callChatCompletion env "You are a consultant specializing in AI for business."
      (useCasePrompt info) with
  | .ok text => pyStrip text
  | .error _ => simpleUseCasesFromIndustry info

/-- The result of one run of the orchestrator. -/
structure RunResult where
  companyInfo : CompanyInfo
  aiUseCases : String

/-- `MultiAgentSystem.run` (src/app.py lines 294-300).  Totality of this
definition models guaranteed termination of the straight-line pipeline. -/
def runSystem (env : Env) (companyName : String) : RunResult :=
  let companyInfo := researchCompany env companyName
  { companyInfo := companyInfo
    aiUseCases := generateUseCases env companyInfo }

/-!  Specification-side characterisations.  These definitions follow the
words of the spec and the claims; the theorems below compare them with the
source-translated functions above. -/

/-- The qualifying fragments of a description, per the spec: split on
sentence boundaries, strip each fragment, skip empty ones, split on the
list separators, strip each part, keep those of length at least 10. -/
def qualifyingFragments (d : String) : List String :=
  ((((splitDotNl d).map fragParts).flatten).map pyStrip).filter
    (fun q => decide (10 ≤ q.length))

/-- The distinct mapped labels of the keyword vocabulary found in the
description, in vocabulary scan order and without the 3-item cut-off —
the spec-side reading of the focus-area fallback. -/
def specFocusLabels (d : String) : List String :=
  fullScan (focusStep (asciiLower d)) focusKeywords []

/-- A loop step that either keeps the accumulator or appends one item. -/
def StepAppends (step : List String → α → List String) : Prop :=
  ∀ c a, step c a = c ∨ ∃ x, step c a = c ++ [x]

/-- The stripped, length-qualifying parts of a part list. -/
def qualParts (ps : List String) : List String :=
  (ps.map pyStrip).filter (fun q => decide (10 ≤ q.length))

/-!  Concrete oracles used by the closed witness and counterexample
statements below. -/

/-- Every remote call raises: the encyclopedia is unreachable and the chat
endpoint raises on every request. -/
def envAllFail : Env :=
  { wiki := fun _ => .error "ConnectionError"
    chat := fun _ _ => .error "APIError"
    htmlPage := fun _ => .error "ConnectionError" }

/-- The summary endpoint times out while the rendered page would be
available; the chat endpoint answers every prompt with a fixed description
text. -/
def envHtml : Env :=
  { wiki := fun _ => .error "timeout"
    chat := fun _ _ =>
      .ok (chatShape "Acme is an AI-generated description used for the test.")
    htmlPage := fun _ =>
      .ok "Acme Corporation is a fictional widget manufacturer from Ohio, United States." }

/-- The summary endpoint answers 200 with a short (25-character) extract;
the chat endpoint answers with a fixed description text. -/
def envShortExtract : Env :=
  { wiki := fun _ => .ok ⟨200, "Acme Corp builds widgets."⟩
    chat := fun _ _ =>
      .ok (chatShape "A model-written description of Acme used for this test.")
    htmlPage := fun _ => .error "unused" }

/-- The summary endpoint answers 200 with a long, acceptable extract; the
chat endpoint raises. -/
def envGoodExtract : Env :=
  { wiki := fun _ =>
      .ok ⟨200, "Acme Corporation is a multinational company that builds widgets."⟩
    chat := fun _ _ => .error "APIError"
    htmlPage := fun _ => .error "unused" }

/-- The summary endpoint times out; the chat endpoint answers every prompt
with the three lines `-`, `Widgets`, `widgets`. -/
def envDupLines : Env :=
  { wiki := fun _ => .error "timeout"
    chat := fun _ _ => .ok (chatShape "-\nWidgets\nwidgets")
    htmlPage := fun _ => .error "timeout" }

/-- The chat endpoint answers every prompt with the single line
`1. Widgets`. -/
def envNumberedLine : Env :=
  { wiki := fun _ => .error "unused"
    chat := fun _ _ => .ok (chatShape "1. Widgets")
    htmlPage := fun _ => .error "unused" }

/-- A finance-industry profile with one offering and one focus area. -/
def infoFinance : CompanyInfo :=
  { company := "AcmeBank"
    industry := "Finance"
    offerings := ["Retail banking accounts"]
    strategicFocus := ["Financial Services"]
    description := "A bank." }

theorem fullScan_decomp {step : List String → α → List String}
    (hstep : StepAppends step) :
    ∀ (as : List α) (c : List String), ∃ e, fullScan step as c = c ++ e := by
  intro as
  induction as with
  | nil => exact fun c => ⟨[], by simp [fullScan]⟩
  | cons a as ih =>
    intro c
    rcases hstep c a with h | ⟨x, h⟩
    · obtain ⟨e, he⟩ := ih (step c a)
      exact ⟨e, by rw [fullScan, he, h]⟩
    · obtain ⟨e, he⟩ := ih (step c a)
      exact ⟨x :: e, by rw [fullScan, he, h]; simp⟩

theorem breakLoop_eq_take {m : Nat} {step : List String → α → List String}
    (hstep : StepAppends step) :
    ∀ (as : List α) (c : List String), c.length < m →
      breakLoop m step as c = (fullScan step as c).take m := by
  intro as
  induction as with
  | nil =>
    intro c hc
    rw [breakLoop, fullScan, List.take_of_length_le (Nat.le_of_lt hc)]
  | cons a as ih =>
    intro c hc
    rw [breakLoop, fullScan]
    rcases hstep c a with h | ⟨x, h⟩
    · rw [h, if_neg (by omega : ¬ m ≤ c.length)]
      exact ih c hc
    · have hlen : (step c a).length = c.length + 1 := by rw [h]; simp
      by_cases hm : m ≤ (step c a).length
      · have hexact : (step c a).length = m := by omega
        rw [if_pos hm]
        obtain ⟨e, he⟩ := fullScan_decomp hstep as (step c a)
        rw [he, List.take_left' hexact]
      · rw [if_neg hm]
        exact ih (step c a) (by omega)

theorem breakLoop_append {m : Nat} {step : List String → α → List String}
    (hstep : StepAppends step) :
    ∀ (as bs : List α) (c : List String), c.length < m →
      breakLoop m step (as ++ bs) c =
        (if m ≤ (breakLoop m step as c).length then breakLoop m step as c
         else breakLoop m step bs (breakLoop m step as c)) := by
  intro as
  induction as with
  | nil =>
    intro bs c hc
    rw [List.nil_append, breakLoop, if_neg (by omega : ¬ m ≤ c.length)]
  | cons a as ih =>
    intro bs c hc
    have hgrow : (step c a).length ≤ c.length + 1 := by
      rcases hstep c a with h | ⟨x, h⟩ <;> rw [h] <;> simp
    rw [List.cons_append, breakLoop, breakLoop]
    by_cases hm : m ≤ (step c a).length
    · simp only [if_pos hm]
    · simp only [if_neg hm]
      exact ih bs (step c a) (by omega)

theorem fragLoop_eq_join {m : Nat} {step : List String → α → List String}
    (hstep : StepAppends step) :
    ∀ (pss : List (List α)) (c : List String), c.length < m →
      fragLoop m step pss c = breakLoop m step pss.flatten c := by
  intro pss
  induction pss with
  | nil => intro c _; rw [fragLoop, List.flatten_nil, breakLoop]
  | cons ps rest ih =>
    intro c hc
    rw [fragLoop, List.flatten_cons, breakLoop_append hstep ps rest.flatten c hc]
    by_cases hm : m ≤ (breakLoop m step ps c).length
    · rw [if_pos hm, if_pos hm]
    · rw [if_neg hm, if_neg hm]
      exact ih (breakLoop m step ps c) (by omega)

/-- Unfolding equation: a qualifying, fresh part is appended. -/
theorem offeringsStep_pos {c : List String} {p : String}
    (h : 10 ≤ (pyStrip p).length ∧ lowerMem (pyStrip p) c = false) :
    offeringsStep c p = c ++ [pyStrip p] := by
  unfold offeringsStep; rw [if_pos h]

/-- Unfolding equation: a short or duplicate part is skipped. -/
theorem offeringsStep_neg {c : List String} {p : String}
    (h : ¬ (10 ≤ (pyStrip p).length ∧ lowerMem (pyStrip p) c = false)) :
    offeringsStep c p = c := by
  unfold offeringsStep; rw [if_neg h]

theorem offeringsStep_appends : StepAppends offeringsStep := by
  intro c p
  by_cases h : 10 ≤ (pyStrip p).length ∧ lowerMem (pyStrip p) c = false
  · exact Or.inr ⟨pyStrip p, offeringsStep_pos h⟩
  · exact Or.inl (offeringsStep_neg h)

theorem focusStep_appends (dl : String) : StepAppends (focusStep dl) := by
  intro c kw
  unfold focusStep
  by_cases h : strContainsS dl kw = true
  · rw [if_pos h]
    by_cases hmem : c.contains (focusLabelOf kw) = true
    · exact Or.inl (by rw [if_pos hmem])
    · exact Or.inr ⟨focusLabelOf kw, by rw [if_neg hmem]⟩
  · exact Or.inl (by rw [if_neg h])

/-- Entries blocked by the case-insensitive membership test differ in
lower-casing from everything already collected. -/
theorem lowerMem_false {q : String} {c : List String}
    (h : lowerMem q c = false) : ∀ x ∈ c, asciiLower x ≠ asciiLower q := by
  intro x hx
  have := List.any_eq_false.mp h x hx
  simpa using this

/-- The scan of the offerings fallback preserves pairwise case-insensitive
distinctness. -/
theorem fullScan_offerings_pairwise :
    ∀ (ps : List String) (c : List String),
      c.Pairwise (fun a b => asciiLower a ≠ asciiLower b) →
      (fullScan offeringsStep ps c).Pairwise
        (fun a b => asciiLower a ≠ asciiLower b) := by
  intro ps
  induction ps with
  | nil => intro c hc; exact hc
  | cons p ps ih =>
    intro c hc
    rw [fullScan]
    apply ih
    by_cases h : 10 ≤ (pyStrip p).length ∧ lowerMem (pyStrip p) c = false
    · rw [offeringsStep_pos h, List.pairwise_append]
      exact ⟨hc, List.pairwise_singleton _ _,
        fun a ha b hb => by
          rw [List.mem_singleton] at hb
          subst hb
          exact lowerMem_false h.2 a ha⟩
    · rw [offeringsStep_neg h]; exact hc

/-- Everything the offerings scan appends is drawn, in order, from the
qualifying parts. -/
theorem fullScan_offerings_sublist :
    ∀ (ps : List String) (c : List String),
      ∃ e, fullScan offeringsStep ps c = c ++ e ∧ e.Sublist (qualParts ps) := by
  intro ps
  induction ps with
  | nil => exact fun c => ⟨[], by simp [fullScan, qualParts]⟩
  | cons p ps ih =>
    intro c
    rw [fullScan]
    have hq : qualParts (p :: ps) =
        if 10 ≤ (pyStrip p).length then pyStrip p :: qualParts ps
        else qualParts ps := by
      unfold qualParts
      rw [List.map_cons, List.filter_cons]
      by_cases h : 10 ≤ (pyStrip p).length
      · rw [if_pos (by simpa using h), if_pos h]
      · rw [if_neg (by simpa using h), if_neg h]
    by_cases h : 10 ≤ (pyStrip p).length ∧ lowerMem (pyStrip p) c = false
    · obtain ⟨e, he, hsub⟩ := ih (c ++ [pyStrip p])
      refine ⟨pyStrip p :: e, ?_, ?_⟩
      · rw [offeringsStep_pos h, he]; simp
      · rw [hq, if_pos h.1]
        exact hsub.cons₂ (pyStrip p)
    · obtain ⟨e, he, hsub⟩ := ih c
      refine ⟨e, by rw [offeringsStep_neg h]; exact he, ?_⟩
      rw [hq]
      by_cases h10 : 10 ≤ (pyStrip p).length
      · rw [if_pos h10]
        exact hsub.trans (List.sublist_cons_self _ _)
      · rw [if_neg h10]; exact hsub

/-- The offerings scan returns nothing only when it started from nothing
and no part qualifies. -/
theorem fullScan_offerings_nil :
    ∀ (ps : List String) (c : List String),
      fullScan offeringsStep ps c = [] → c = [] ∧ qualParts ps = [] := by
  intro ps
  induction ps with
  | nil => intro c h; exact ⟨h, rfl⟩
  | cons p ps ih =>
    intro c h
    rw [fullScan] at h
    obtain ⟨hstep, hqs⟩ := ih (offeringsStep c p) h
    unfold offeringsStep at hstep
    by_cases hcond : 10 ≤ (pyStrip p).length ∧ lowerMem (pyStrip p) c = false
    · rw [if_pos hcond] at hstep
      exact absurd hstep (by simp)
    · rw [if_neg hcond] at hstep
      subst hstep
      have h10 : ¬ 10 ≤ (pyStrip p).length := by
        intro h10
        exact hcond ⟨h10, by simp [lowerMem]⟩
      refine ⟨rfl, ?_⟩
      unfold qualParts
      rw [List.map_cons, List.filter_cons, if_neg (by simpa using h10)]
      exact hqs

/-- The candidates of the offerings fallback are the first three entries
of the dedup-scan over all qualifying parts. -/
theorem simpleOfferings_candidates (d : String) :
    fragLoop 3 offeringsStep ((splitDotNl d).map fragParts) [] =
      (fullScan offeringsStep ((splitDotNl d).map fragParts).flatten []).take 3 := by
  rw [fragLoop_eq_join offeringsStep_appends _ _ (by simp)]
  rw [breakLoop_eq_take offeringsStep_appends _ _ (by simp)]

/-- `qualifyingFragments` is `qualParts` of the flattened parts. -/
theorem qualifyingFragments_eq (d : String) :
    qualifyingFragments d = qualParts ((splitDotNl d).map fragParts).flatten := rfl

/-!  Substring facts for the `"\n".join` of the use-case fallback. -/

theorem isPrefixB_refl : ∀ l : List Char, isPrefixB l l = true := by
  intro l
  induction l with
  | nil => rfl
  | cons c t ih => simp [isPrefixB, ih]

theorem containsB_self : ∀ l : List Char, containsB l l = true := by
  intro l
  cases l with
  | nil => rfl
  | cons c t => simp [containsB, isPrefixB_refl]

theorem isPrefixB_append {n h : List Char} (hp : isPrefixB n h = true)
    (t : List Char) : isPrefixB n (h ++ t) = true := by
  induction n generalizing h with
  | nil => rfl
  | cons a as ih =>
    cases h with
    | nil => exact absurd hp (by simp [isPrefixB])
    | cons b bs =>
      simp only [isPrefixB, Bool.and_eq_true] at hp
      simp only [List.cons_append, isPrefixB, Bool.and_eq_true]
      exact ⟨hp.1, ih hp.2⟩

theorem containsB_append_left {n h : List Char} (hc : containsB n h = true)
    (t : List Char) : containsB n (h ++ t) = true := by
  induction h with
  | nil =>
    have hn : isPrefixB n [] = true := hc
    have : n = [] := by cases n with
      | nil => rfl
      | cons a as => exact absurd hn (by simp [isPrefixB])
    subst this
    cases t with
    | nil => rfl
    | cons c r => simp [containsB, isPrefixB]
  | cons c h ih =>
    simp only [containsB, Bool.or_eq_true] at hc
    rcases hc with hp | hrest
    · simp only [List.cons_append, containsB, Bool.or_eq_true]
      exact Or.inl (by simpa using isPrefixB_append hp t)
    · simp only [List.cons_append, containsB, Bool.or_eq_true]
      exact Or.inr (ih hrest)

theorem containsB_append_right {n t : List Char} (hc : containsB n t = true)
    (h : List Char) : containsB n (h ++ t) = true := by
  induction h with
  | nil => exact hc
  | cons c h ih =>
    simp only [List.cons_append, containsB, Bool.or_eq_true]
    exact Or.inr ih

theorem string_toList_append (a b : String) :
    (a ++ b).toList = a.toList ++ b.toList := by
  cases a; cases b; rfl

/-- Every member of a bullet list occurs verbatim in its newline join. -/
theorem strContains_of_mem_joinNl {x : String} :
    ∀ {l : List String}, x ∈ l → strContainsS (joinNl l) x = true := by
  intro l
  induction l with
  | nil => intro hx; exact absurd hx (List.not_mem_nil x)
  | cons a rest ih =>
    intro hx
    cases rest with
    | nil =>
      rw [List.mem_singleton] at hx
      subst hx
      exact containsB_self _
    | cons b r =>
      have hjoin : joinNl (a :: b :: r) = a ++ "\n" ++ joinNl (b :: r) := rfl
      rcases List.mem_cons.mp hx with rfl | hmem
      · show containsB x.toList (joinNl (x :: b :: r)).toList = true
        rw [hjoin, string_toList_append, string_toList_append,
          List.append_assoc]
        exact containsB_append_left (containsB_self _) _
      · show containsB x.toList (joinNl (a :: b :: r)).toList = true
        rw [hjoin, string_toList_append]
        exact containsB_append_right (ih hmem) _

/-- A string with a non-empty right append summand is non-empty. -/
theorem append_ne_empty_of_right (a b : String) (hb : b ≠ "") :
    a ++ b ≠ "" := by
  intro h
  apply hb
  have hdata := congrArg String.data h
  rw [String.data_append] at hdata
  have h2 := (List.append_eq_nil.mp hdata).2
  cases b with
  | mk bdata =>
    simp only at h2
    simp [h2]

/-!  Unfolding equations through the `let`-bindings of the Python locals. -/

theorem simpleOfferings_eq (d : String) (hd : d ≠ "") :
    simpleOfferingsFromDescription d 3 =
      if fragLoop 3 offeringsStep ((splitDotNl d).map fragParts) [] = []
      then [strTake 140 (pyStrip d)]
      else (fragLoop 3 offeringsStep ((splitDotNl d).map fragParts) []).take 3 := by
  unfold simpleOfferingsFromDescription
  rw [if_neg hd]

theorem simpleFocus_eq (d : String) :
    simpleFocusFromDescription d 3 =
      if breakLoop 3 (focusStep (asciiLower d)) focusKeywords [] = []
      then genericFocus.take 3
      else (breakLoop 3 (focusStep (asciiLower d)) focusKeywords []).take 3 := rfl

theorem scrape_description_eq (env : Env) (name : String) :
    (scrapeCompanyInfo env name).description =
      (if wikiDescription env name = ""
       then generateDescriptionWithGroq env name
       else wikiDescription env name) := rfl

theorem scrape_products_eq (env : Env) (name : String) :
    (scrapeCompanyInfo env name).products =
      (if generateOfferings env (scrapeCompanyInfo env name).description = []
       then simpleOfferingsFromDescription
         (scrapeCompanyInfo env name).description 3
       else generateOfferings env (scrapeCompanyInfo env name).description) := rfl

theorem scrape_focusAreas_eq (env : Env) (name : String) :
    (scrapeCompanyInfo env name).focusAreas =
      (if generateFocusAreas env (scrapeCompanyInfo env name).description = []
       then simpleFocusFromDescription
         (scrapeCompanyInfo env name).description 3
       else generateFocusAreas env (scrapeCompanyInfo env name).description) := rfl

theorem research_offerings_eq (env : Env) (name : String) :
    (researchCompany env name).offerings = (scrapeCompanyInfo env name).products := rfl

theorem research_focus_eq (env : Env) (name : String) :
    (researchCompany env name).strategicFocus =
      (scrapeCompanyInfo env name).focusAreas := rfl

theorem research_description_eq (env : Env) (name : String) :
    (researchCompany env name).description =
      (scrapeCompanyInfo env name).description := rfl

theorem research_industry_eq (env : Env) (name : String) :
    (researchCompany env name).industry =
      classifyIndustry (scrapeCompanyInfo env name).description := rfl

theorem runSystem_info_eq (env : Env) (name : String) :
    (runSystem env name).companyInfo = researchCompany env name := rfl

/-!  Bounds on list lengths produced by the generators and fallbacks. -/

theorem simpleOfferings_length_le (d : String) :
    (simpleOfferingsFromDescription d 3).length ≤ 3 := by
  by_cases hd : d = ""
  · simp [simpleOfferingsFromDescription, hd]
  · rw [simpleOfferings_eq d hd]
    split
    · simp
    · exact List.length_take_le _ _

theorem simpleFocus_length_le (d : String) :
    (simpleFocusFromDescription d 3).length ≤ 3 := by
  rw [simpleFocus_eq]
  split
  · exact List.length_take_le _ _
  · exact List.length_take_le _ _

theorem generateOfferings_length_le (env : Env) (d : String) :
    (generateOfferings env d).length ≤ 3 := by
  unfold generateOfferings
  split
  · exact List.length_take_le _ _
  · simp

theorem generateFocusAreas_length_le (env : Env) (d : String) :
    (generateFocusAreas env d).length ≤ 3 := by
  unfold generateFocusAreas
  split
  · exact List.length_take_le _ _
  · simp

/-- The industry classifier only ever returns a label of the closed set. -/
theorem classifyIndustry_mem (d : String) :
    classifyIndustry d ∈ industryLabels := by
  unfold classifyIndustry
  dsimp only
  split_ifs <;> simp [industryLabels]

/-- Extraction on the well-formed response shape recovers the content. -/
theorem extractChatContent_chatShape (x : String) :
    extractChatContent (chatShape x) = Except.ok x := rfl

/-!  Claim theorems. -/

/-- C1: for every company name, when every encyclopedia call and every
language-model call raises, `MultiAgentSystem.run` (total by construction,
hence terminating) returns a profile whose description is exactly the
synthetic sentence mentioning the company name — in particular non-empty —
and whose industry is drawn from the fixed label set. -/
theorem c1_run_total_under_total_failure (env : Env) (name : String)
    (ew : String → String) (ec : String → String → String)
    (hw : ∀ s, env.wiki s = Except.error (ew s))
    (hc : ∀ r p, env.chat r p = Except.error (ec r p)) :
    (runSystem env name).companyInfo.description =
        name ++ " (description unavailable due to API error)." ∧
    (runSystem env name).companyInfo.description ≠ "" ∧
    (runSystem env name).companyInfo.industry ∈ industryLabels := by
  have hwd : wikiDescription env name = "" := by
    unfold wikiDescription
    rw [hw]
  have hdesc : generateDescriptionWithGroq env name =
      name ++ " (description unavailable due to API error)." := by
    unfold generateDescriptionWithGroq callChatCompletion
    rw [hc]
  have hsd : (scrapeCompanyInfo env name).description =
      name ++ " (description unavailable due to API error)." := by
    rw [scrape_description_eq, if_pos hwd, hdesc]
  refine ⟨?_, ?_, ?_⟩
  · rw [runSystem_info_eq, research_description_eq, hsd]
  · rw [runSystem_info_eq, research_description_eq, hsd]
    exact append_ne_empty_of_right _ _ (by decide)
  · rw [runSystem_info_eq, research_industry_eq]
    exact classifyIndustry_mem _

/-- C1 witness: the all-failing oracle at company name `Acme`. -/
theorem c1_witness :
    (runSystem envAllFail "Acme").companyInfo.description =
        "Acme" ++ " (description unavailable due to API error)." ∧
    (runSystem envAllFail "Acme").companyInfo.description ≠ "" ∧
    (runSystem envAllFail "Acme").companyInfo.industry ∈ industryLabels :=
  c1_run_total_under_total_failure envAllFail "Acme"
    (fun _ => "ConnectionError") (fun _ _ => "APIError")
    (fun _ => rfl) (fun _ _ => rfl)

/-- C5 counterexample: on a response object with none of the recognized
fields the extraction raises (modelled by `Except.error`) instead of
returning a stringified fallback, refuting the second half of the claim. -/
theorem c5_counterexample :
    extractChatContent (PyObj.dict [("result", PyObj.str "hello")]) =
      Except.error "AttributeError: choices" := rfl

/-- C5 amended: the extraction returns exactly the content string for the
well-formed `{choices:[{message:{content:X}}]}` shape; on an object whose
fields do not include `choices` it raises an `AttributeError` (which the
callers catch and turn into their fallbacks) — no stringified fallback of
the object is produced. -/
theorem c5_extraction_amended :
    (∀ x, extractChatContent (chatShape x) = Except.ok x) ∧
    (∀ fields : List (String × PyObj),
      fields.find? (fun p => p.1 == "choices") = Option.none →
      extractChatContent (PyObj.dict fields) =
        Except.error "AttributeError: choices") := by
  refine ⟨extractChatContent_chatShape, ?_⟩
  intro fields h
  simp only [extractChatContent, getAttr, h]
  rfl

/-- C5 witness: the two halves of the amended claim at concrete inputs. -/
theorem c5_witness :
    extractChatContent (chatShape "X") = Except.ok "X" ∧
    extractChatContent (PyObj.dict [("error", PyObj.str "rate limit")]) =
      Except.error "AttributeError: choices" :=
  ⟨c5_extraction_amended.1 "X",
   c5_extraction_amended.2 [("error", PyObj.str "rate limit")] rfl⟩

/-- C7: the industry classifier is a pure total function into the closed
label set, with case-insensitive substring rules in a fixed order, first
match winning, `General Industry` on no match and immediately on the empty
description; the three cited examples and a first-match-wins example. -/
theorem c7_industry_classifier :
    (∀ d, classifyIndustry d ∈ industryLabels) ∧
    classifyIndustry "" = "General Industry" ∧
    classifyIndustry "a global automotive manufacturer" = "Automotive" ∧
    classifyIndustry "cloud-based SaaS analytics" = "Technology" ∧
    classifyIndustry "automotive and finance group" = "Automotive" ∧
    classifyIndustry "A VEHICLE company" = "Automotive" ∧
    classifyIndustry "plumbing services" = "General Industry" :=
  ⟨classifyIndustry_mem, by decide, by decide, by decide, by decide,
   by decide, by decide⟩

/-- C2 counterexample: when the model answers the three lines `-`,
`Widgets`, `widgets`, the final profile keeps all three parsed items, so
the offerings contain an entry that is empty after trimming and two
entries equal under case-insensitive comparison. -/
theorem c2_counterexample :
    (researchCompany envDupLines "Acme").offerings = ["", "Widgets", "widgets"] ∧
    ¬ (researchCompany envDupLines "Acme").offerings.Pairwise
        (fun a b => asciiLower a ≠ asciiLower b) ∧
    ∃ x ∈ (researchCompany envDupLines "Acme").offerings, pyStrip x = "" := by
  refine ⟨rfl, ?_, ?_⟩
  · decide
  · decide

/-- C2 amended: in every final profile the offerings and the focus areas
each have length at most 3; the no-duplicates and non-empty-after-trimming
guarantees hold for the heuristic fallback outputs (C8, C10) but not for
items parsed from model text. -/
theorem c2_lengths_le_three (env : Env) (name : String) :
    (researchCompany env name).offerings.length ≤ 3 ∧
    (researchCompany env name).strategicFocus.length ≤ 3 := by
  constructor
  · rw [research_offerings_eq, scrape_products_eq]
    split
    · exact simpleOfferings_length_le _
    · exact generateOfferings_length_le _ _
  · rw [research_focus_eq, scrape_focusAreas_eq]
    split
    · exact simpleFocus_length_le _
    · exact generateFocusAreas_length_le _ _

/-- C3 counterexample: with the summary endpoint failing, a rendered page
available, and the model answering, the call trace goes straight from the
summary fetch to the description model call — no HTML fetch happens and
the resulting description is the model text, not the page paragraph. -/
theorem c3_counterexample :
    scrapeCalls envHtml "Acme" =
      [CallTag.wikiSummary, CallTag.llmDescription,
       CallTag.llmOfferings, CallTag.llmFocus] ∧
    CallTag.htmlFetch ∉ scrapeCalls envHtml "Acme" ∧
    envHtml.htmlPage "Acme" =
      Except.ok "Acme Corporation is a fictional widget manufacturer from Ohio, United States." ∧
    (scrapeCompanyInfo envHtml "Acme").description =
      "Acme is an AI-generated description used for the test." ∧
    (scrapeCompanyInfo envHtml "Acme").description ≠
      "Acme Corporation is a fictional widget manufacturer from Ohio, United States." := by
  refine ⟨rfl, by decide, rfl, rfl, by decide⟩

/-- C3 amended: the resolver's fallback chain is (1) the encyclopedia
summary endpoint, (2) language-model generation (with the synthetic
placeholder inside it when that call also fails); whenever the summary
step fails or is rejected, the language model is called directly — there
is no rendered-HTML step, and no call trace ever contains an HTML fetch. -/
theorem c3_no_html_step (env : Env) (name : String) :
    (wikiDescription env name = "" →
      (scrapeCompanyInfo env name).description =
        generateDescriptionWithGroq env name) ∧
    (wikiDescription env name ≠ "" →
      (scrapeCompanyInfo env name).description = wikiDescription env name) ∧
    CallTag.htmlFetch ∉ scrapeCalls env name := by
  refine ⟨?_, ?_, ?_⟩
  · intro h
    rw [scrape_description_eq, if_pos h]
  · intro h
    rw [scrape_description_eq, if_neg h]
  · unfold scrapeCalls
    split <;> decide

/-- C3 witness: the amended claim at the all-failing oracle. -/
theorem c3_witness :
    wikiDescription envAllFail "Acme" = "" ∧
    (scrapeCompanyInfo envAllFail "Acme").description =
      generateDescriptionWithGroq envAllFail "Acme" ∧
    CallTag.htmlFetch ∉ scrapeCalls envAllFail "Acme" :=
  ⟨rfl, (c3_no_html_step envAllFail "Acme").1 rfl,
   (c3_no_html_step envAllFail "Acme").2.2⟩

/-- C4 counterexample: the summary body `{"extract": "Acme Corp builds
widgets."}` is only 25 characters, so the resolver rejects it as too short
and falls through to the model, instead of returning it unchanged. -/
theorem c4_counterexample :
    (scrapeCompanyInfo envShortExtract "Acme").description ≠
      "Acme Corp builds widgets." ∧
    (scrapeCompanyInfo envShortExtract "Acme").description =
      "A model-written description of Acme used for this test." ∧
    (pyStrip "Acme Corp builds widgets.").length < 40 := by
  refine ⟨by decide, rfl, by decide⟩

/-- C4 amended: a 200 summary response is returned unchanged exactly when
its extract does not contain the disambiguation marker and has trimmed
length at least 40; `"Acme Corp builds widgets."` is shorter than 40
characters, so it is rejected and the resolver proceeds to the next
fallback step, as it does for a disambiguation body. -/
theorem c4_summary_acceptance (env : Env) (name : String) (extract : String)
    (hw : env.wiki (underscoreSpaces name) = Except.ok ⟨200, extract⟩) :
    (strContainsS (asciiLower extract) "may refer to:" = false →
      40 ≤ (pyStrip extract).length →
      (scrapeCompanyInfo env name).description = extract) ∧
    (strContainsS (asciiLower extract) "may refer to:" = true →
      (scrapeCompanyInfo env name).description =
        generateDescriptionWithGroq env name) := by
  have hwd : wikiDescription env name =
      (if strContainsS (asciiLower extract) "may refer to:"
          || decide ((pyStrip extract).length < 40) then "" else extract) := by
    unfold wikiDescription
    rw [hw]
    simp
  constructor
  · intro hm hl
    have hlt : ¬ (pyStrip extract).length < 40 := Nat.not_lt.mpr hl
    have hne : extract ≠ "" := by
      intro he
      subst he
      have h0 : (pyStrip "").length = 0 := rfl
      omega
    have hval : wikiDescription env name = extract := by
      rw [hwd, hm]
      simp [hlt]
    rw [scrape_description_eq, hval, if_neg hne]
  · intro hm
    have hval : wikiDescription env name = "" := by
      rw [hwd, hm]
      simp
    rw [scrape_description_eq, hval, if_pos rfl]

/-- C4 witness: a 65-character extract is accepted and returned
unchanged. -/
theorem c4_witness :
    (scrapeCompanyInfo envGoodExtract "Acme").description =
      "Acme Corporation is a multinational company that builds widgets." :=
  (c4_summary_acceptance envGoodExtract "Acme"
    "Acme Corporation is a multinational company that builds widgets." rfl).1
    (by decide) (by decide)

/-- C6 counterexample: the response line `1. Widgets` is parsed to the
item `1. Widgets` — the leading digit and dot are not stripped — refuting
the claim that it yields `Widgets`. -/
theorem c6_counterexample :
    generateOfferings envNumberedLine "Acme builds widgets." = ["1. Widgets"] ∧
    generateOfferings envNumberedLine "Acme builds widgets." ≠ ["Widgets"] :=
  ⟨rfl, by decide⟩

/-- C6 amended: the primary parse splits on line breaks, discards lines
blank after whitespace-trimming, strips from BOTH ends of each remaining
line any run of space, `-` and `•` characters only (digits, `.`, `)` and
`*` are kept), and truncates to the first 3 items; `1. Widgets` therefore
yields `1. Widgets` while `-  Widgets -` yields `Widgets`. -/
theorem c6_line_parse (env : Env) (desc text : String)
    (h : env.chat "You are an expert product analyst." (offeringsPrompt desc) =
      Except.ok (chatShape text)) :
    generateOfferings env desc = (parseItems text).take 3 ∧
    parseItems "1. Widgets" = ["1. Widgets"] ∧
    parseItems "-  Widgets -\n\n• Gadgets" = ["Widgets", "Gadgets"] ∧
    parseItems "* Star item\n2) Next" = ["* Star item", "2) Next"] ∧
    (parseItems "alpha\nbeta\ngamma\ndelta").take 3 = ["alpha", "beta", "gamma"] := by
  have hcc : callChatCompletion env "You are an expert product analyst."
      (offeringsPrompt desc) = Except.ok text := by
    unfold callChatCompletion
    rw [h]
    exact extractChatContent_chatShape text
  refine ⟨?_, by decide, by decide, by decide, by decide⟩
  unfold generateOfferings
  rw [hcc]

/-- C6 witness: the amended parse equation at the numbered-line oracle. -/
theorem c6_witness :
    generateOfferings envNumberedLine "A widget maker." =
      (parseItems "1. Widgets").take 3 ∧
    parseItems "1. Widgets" = ["1. Widgets"] := by
  have h := c6_line_parse envNumberedLine "A widget maker." "1. Widgets" rfl
  exact ⟨h.1, h.2.1⟩

/-- C8: for every non-empty description the heuristic offerings fallback
returns at most 3 entries, case-insensitively pairwise distinct; when no
stripped fragment part of length at least 10 exists, the single item is
the trimmed description truncated to 140 characters; otherwise the result
is drawn in scan order from the qualifying fragments, each of length at
least 10; the cited example yields its two long fragments. -/
theorem c8_heuristic_offerings :
    (∀ d : String, d ≠ "" →
      (simpleOfferingsFromDescription d 3).length ≤ 3 ∧
      (simpleOfferingsFromDescription d 3).Pairwise
        (fun a b => asciiLower a ≠ asciiLower b) ∧
      (qualifyingFragments d = [] →
        simpleOfferingsFromDescription d 3 = [strTake 140 (pyStrip d)]) ∧
      (qualifyingFragments d ≠ [] →
        (simpleOfferingsFromDescription d 3).Sublist (qualifyingFragments d) ∧
        ∀ x ∈ simpleOfferingsFromDescription d 3, 10 ≤ x.length)) ∧
    simpleOfferingsFromDescription
      "We sell shoes, hats, and bags. We also offer repairs." 3 =
      ["We sell shoes", "We also offer repairs"] := by
  constructor
  · intro d hd
    obtain ⟨e, he, hsub⟩ :=
      fullScan_offerings_sublist ((splitDotNl d).map fragParts).flatten []
    have hfull : fullScan offeringsStep ((splitDotNl d).map fragParts).flatten []
        = e := by
      rw [he, List.nil_append]
    have hcand : fragLoop 3 offeringsStep ((splitDotNl d).map fragParts) []
        = e.take 3 := by
      rw [simpleOfferings_candidates, hfull]
    have hpw : e.Pairwise (fun a b => asciiLower a ≠ asciiLower b) := by
      rw [← hfull]
      exact fullScan_offerings_pairwise _ [] List.Pairwise.nil
    refine ⟨simpleOfferings_length_le d, ?_, ?_, ?_⟩
    · rw [simpleOfferings_eq d hd]
      split
      · exact List.pairwise_singleton _ _
      · rw [hcand]
        exact List.Pairwise.sublist
          ((List.take_sublist _ _).trans (List.take_sublist _ _)) hpw
    · intro hq
      have he0 : e = [] := by
        have hsub2 := hsub
        rw [← qualifyingFragments_eq d, hq] at hsub2
        exact List.sublist_nil.mp hsub2
      rw [simpleOfferings_eq d hd, if_pos (by rw [hcand, he0]; rfl)]
    · intro hq
      have hne : e ≠ [] := by
        intro he0
        have hnil := fullScan_offerings_nil
          ((splitDotNl d).map fragParts).flatten [] (by rw [hfull]; exact he0)
        exact hq (by rw [qualifyingFragments_eq d]; exact hnil.2)
      have hcne : e.take 3 ≠ [] := by
        intro h0
        rcases List.take_eq_nil_iff.mp h0 with h3 | h3
        · exact absurd h3 (by decide)
        · exact hne h3
      have h33 : (e.take 3).take 3 = e.take 3 := by
        simp [List.take_take]
      have hexpr : simpleOfferingsFromDescription d 3 = (e.take 3).take 3 := by
        rw [simpleOfferings_eq d hd, hcand, if_neg hcne]
      constructor
      · rw [hexpr, h33]
        exact (List.take_sublist _ _).trans hsub
      · intro x hx
        rw [hexpr, h33] at hx
        have hxq : x ∈ qualifyingFragments d :=
          hsub.subset ((List.take_sublist _ _).subset hx)
        have hmf := List.mem_filter.mp hxq
        simpa using hmf.2
  · decide

/-- C8 witness: the cited example has qualifying fragments, and the result
is drawn from them in scan order with every entry of length at least 10. -/
theorem c8_witness :
    ("We sell shoes, hats, and bags. We also offer repairs." ≠ "") ∧
    qualifyingFragments "We sell shoes, hats, and bags. We also offer repairs." ≠ [] ∧
    (simpleOfferingsFromDescription
        "We sell shoes, hats, and bags. We also offer repairs." 3).Sublist
      (qualifyingFragments "We sell shoes, hats, and bags. We also offer repairs.") ∧
    ∀ x ∈ simpleOfferingsFromDescription
        "We sell shoes, hats, and bags. We also offer repairs." 3,
      10 ≤ x.length := by
  have h := (c8_heuristic_offerings.1
    "We sell shoes, hats, and bags. We also offer repairs." (by decide)).2.2.2
    (by decide)
  exact ⟨by decide, by decide, h.1, h.2⟩

/-- C9: when the use-case model call raises and the profile industry is
`Finance`, the template fallback contains the fixed fraud-detection bullet
verbatim, plus — whenever the offerings (resp. focus areas) are non-empty
— a bullet interpolating the first offering (resp. first focus area). -/
theorem c9_finance_fallback (env : Env) (info : CompanyInfo) (e : String)
    (hchat : env.chat "You are a consultant specializing in AI for business."
        (useCasePrompt info) = Except.error e)
    (hind : info.industry = "Finance") :
    strContainsS (generateUseCases env info)
        "- Fraud detection using anomaly detection models." = true ∧
    (∀ o rest, info.offerings = o :: rest →
      strContainsS (generateUseCases env info)
        ("- Tailored solution idea: adapt GenAI to " ++ o ++ ".") = true) ∧
    (∀ f rest, info.strategicFocus = f :: rest →
      strContainsS (generateUseCases env info)
        ("- Strategic alignment: focus on " ++ f ++ " to unlock growth.") = true) := by
  have hgen : generateUseCases env info = simpleUseCasesFromIndustry info := by
    unfold generateUseCases callChatCompletion
    rw [hchat]
  have hbase : industryBullets
      (asciiLower (if info.industry = "" then "General" else info.industry)) =
      ["- Fraud detection using anomaly detection models.",
       "- Smart financial summaries & compliance automation with GenAI.",
       "- Customer support & chatbot for common inquiries."] := by
    rw [hind]
    decide
  have hcases : simpleUseCasesFromIndustry info =
      joinNl (industryBullets
          (asciiLower (if info.industry = "" then "General" else info.industry))
        ++ offeringExtra info.offerings ++ focusExtra info.strategicFocus) := rfl
  rw [hgen, hcases, hbase]
  refine ⟨?_, ?_, ?_⟩
  · apply strContains_of_mem_joinNl
    simp
  · intro o rest ho
    apply strContains_of_mem_joinNl
    rw [ho]
    simp [offeringExtra]
  · intro f rest hf
    apply strContains_of_mem_joinNl
    rw [hf]
    simp [focusExtra]

/-- C9 witness: the finance profile at the all-failing oracle carries the
fraud bullet and both interpolated bullets. -/
theorem c9_witness :
    strContainsS (generateUseCases envAllFail infoFinance)
      "- Fraud detection using anomaly detection models." = true ∧
    strContainsS (generateUseCases envAllFail infoFinance)
      "- Tailored solution idea: adapt GenAI to Retail banking accounts." = true ∧
    strContainsS (generateUseCases envAllFail infoFinance)
      "- Strategic alignment: focus on Financial Services to unlock growth." = true := by
  have h := c9_finance_fallback envAllFail infoFinance "APIError" rfl rfl
  exact ⟨h.1, h.2.1 "Retail banking accounts" [] rfl,
    h.2.2 "Financial Services" [] rfl⟩

/-- C10: for every description — including the empty one — the heuristic
focus-areas fallback returns between 1 and 3 items: exactly the three
generic labels when no vocabulary keyword occurs in the description, and
otherwise the first up-to-3 distinct mapped labels in vocabulary scan
order; in particular it never returns an empty list. -/
theorem c10_focus_fallback (d : String) :
    1 ≤ (simpleFocusFromDescription d 3).length ∧
    (simpleFocusFromDescription d 3).length ≤ 3 ∧
    (specFocusLabels d = [] →
      simpleFocusFromDescription d 3 =
        ["Product/Market Fit", "Customer Experience", "Operational Efficiency"]) ∧
    (specFocusLabels d ≠ [] →
      simpleFocusFromDescription d 3 = (specFocusLabels d).take 3) := by
  have hfound : breakLoop 3 (focusStep (asciiLower d)) focusKeywords [] =
      (specFocusLabels d).take 3 := by
    rw [breakLoop_eq_take (focusStep_appends _) _ _ (by simp)]
    rfl
  by_cases hs : specFocusLabels d = []
  · have hf0 : breakLoop 3 (focusStep (asciiLower d)) focusKeywords [] = [] := by
      rw [hfound, hs]
      rfl
    have hval : simpleFocusFromDescription d 3 = genericFocus.take 3 := by
      rw [simpleFocus_eq, if_pos hf0]
    refine ⟨?_, ?_, ?_, ?_⟩
    · rw [hval]; decide
    · rw [hval]; decide
    · intro _
      rw [hval]
      rfl
    · intro hne
      exact absurd hs hne
  · have hfne : breakLoop 3 (focusStep (asciiLower d)) focusKeywords [] ≠ [] := by
      rw [hfound]
      intro h0
      rcases List.take_eq_nil_iff.mp h0 with h3 | h3
      · exact absurd h3 (by decide)
      · exact hs h3
    have hval : simpleFocusFromDescription d 3 = (specFocusLabels d).take 3 := by
      rw [simpleFocus_eq, if_neg hfne, hfound]
      simp [List.take_take]
    refine ⟨?_, ?_, ?_, ?_⟩
    · rw [hval]
      obtain ⟨a, t, ht⟩ := List.exists_cons_of_ne_nil hs
      rw [ht]
      simp
    · rw [hval]
      exact List.length_take_le _ _
    · intro h
      exact absurd h hs
    · intro _
      exact hval

/-- C10 witness: a description matching `cloud`, `ai` and `ml` yields the
first distinct mapped labels. -/
theorem c10_witness :
    specFocusLabels "cloud ai ml platform" ≠ [] ∧
    simpleFocusFromDescription "cloud ai ml platform" 3 =
      (specFocusLabels "cloud ai ml platform").take 3 :=
  ⟨by decide, (c10_focus_fallback "cloud ai ml platform").2.2.2 (by decide)⟩

end AIAgent
